import Mathlib

/-!
Verification development for the NBA per-game statistics pipeline
(scrape_nba_player_data, create_nba_database, PER_calculator,
print_top_players in main.py).

The embedding models:
  * the header sanitization loop (replace percent signs by "Pct",
    strip non-word characters, underscore-prefix a leading digit);
  * the row extraction of scrape_nba_player_data;
  * the table creation, duplicate probe and insertion loop, and the
    three ALTER TABLE column renames of create_nba_database;
  * the PER formula and update loop of PER_calculator, with Python
    runtime faults (ValueError, IndexError, ZeroDivisionError) made
    explicit through an Except monad;
  * the G >= 50 selection of print_top_players under SQLite TEXT
    affinity (byte-wise string comparison).
Numeric values are modelled as rationals.
-/

/-- Runtime faults of the Python code: a failed float conversion, an
out-of-range index, and division by zero. -/
inductive Fault where
  | valueError : Fault
  | indexError : Fault
  | zeroDivisionError : Fault
deriving DecidableEq, Repr

/-- Numeric value of a list of decimal digit characters, most
significant first. -/
def digitsVal (l : List Char) : Nat :=
  l.foldl (fun n c => 10 * n + (c.toNat - 48)) 0

/-- Split a character list at the first dot; fails when a second dot
occurs (Python float conversion rejects two dots). -/
def splitDot : List Char → Option (List Char × Option (List Char))
  | [] => some ([], none)
  | c :: rest =>
    if c = '.' then
      if rest.contains '.' then none else some ([], some rest)
    else
      (splitDot rest).map (fun p => (c :: p.1, p.2))

/-- Decimal core of the Python float conversion: an unsigned digit
string with an optional fractional part. -/
def parseUnsigned (cs : List Char) : Option ℚ :=
  match splitDot cs with
  | none => none
  | some (ip, none) =>
    if ip ≠ [] ∧ ip.all Char.isDigit then some (digitsVal ip) else none
  | some (ip, some fp) =>
    if (ip ≠ [] ∨ fp ≠ []) ∧ ip.all Char.isDigit ∧ fp.all Char.isDigit then
      some ((digitsVal ip : ℚ) + (digitsVal fp : ℚ) / (10 : ℚ) ^ fp.length)
    else none

/-- Model of the Python float(string) conversion on the decimal strings
that occur in the stored statistics: optional sign, digits, optional
fractional part. -/
def parseDec (s : String) : Option ℚ :=
  match s.data with
  | '-' :: rest => (parseUnsigned rest).map (fun q => -q)
  | '+' :: rest => parseUnsigned rest
  | cs => parseUnsigned cs

/-- float(player_record[i]) in PER_calculator: indexing fault when the
record is too short, conversion fault when the text is not numeric. -/
def getFloat (record : List String) (i : Nat) : Except Fault ℚ :=
  match record.get? i with
  | none => Except.error Fault.indexError
  | some s =>
    match parseDec s with
    | none => Except.error Fault.valueError
    | some q => Except.ok q

/-- The PER computation of PER_calculator for one fetched record, with
the field positions of main.py lines 138-150 and the formula of lines
153-160.  The division by minutes_played applies to the second
parenthesized group only, as in the Python expression A - B / M. -/
def computePER (record : List String) : Except Fault ℚ := do
  let minutes_played ← getFloat record 6
  let points ← getFloat record 28
  let assists ← getFloat record 23
  let defensive_rebounds ← getFloat record 21
  let offensive_rebounds ← getFloat record 20
  let steals ← getFloat record 24
  let blocks ← getFloat record 25
  let two_pointers_made ← getFloat record 13
  let three_pointers_made ← getFloat record 10
  let two_pointers_attempted ← getFloat record 14
  let three_pointers_attempted ← getFloat record 11
  let turnovers ← getFloat record 26
  let personal_fouls ← getFloat record 27
  if minutes_played = 0 then Except.error Fault.zeroDivisionError
  else
    Except.ok
      ((points + assists + defensive_rebounds / 2 + offensive_rebounds +
          steals * 2 + blocks * 2 + two_pointers_made +
          three_pointers_made * 2) -
        (two_pointers_attempted / 2 + three_pointers_attempted +
          turnovers * 2 + personal_fouls / 3) / minutes_played)

/-- The table of player records: each stored row keeps the two identity
columns, the statistical columns as text, and the derived PER value.
The name and team fields are the first two cells of the scraped row,
stored under the schema columns player_name and player_team. -/
structure PlayerRow where
  name : String
  team : String
  stats : List String
  per : ℚ
deriving DecidableEq, Repr

/-- The fields of a stored row in schema order as returned by
SELECT * (the PER column sits after all of these and is never read by
position in PER_calculator). -/
def rowFields (r : PlayerRow) : List String :=
  r.name :: r.team :: r.stats

/-- The identity pair of a stored row, the composite primary key
(player_name, player_team). -/
def rowKey (r : PlayerRow) : String × String :=
  (r.name, r.team)

/-- One iteration of the insertion loop of create_nba_database: skip a
row with fewer than two fields, probe for an existing row with the
same identity pair, otherwise fill empty statistics with "0" and
append the new row with PER set to 0. -/
def insertRow (acc : List PlayerRow) (info : List String) : List PlayerRow :=
  if info.length < 2 then acc
  else
    let player_name := info.getD 0 ""
    let player_team := info.getD 1 ""
    if acc.any (fun r => r.name = player_name && r.team = player_team) then acc
    else
      acc ++ [{ name := player_name, team := player_team,
                stats := (info.drop 2).map (fun s => if s = "" then "0" else s),
                per := 0 }]

/-- The full insertion loop of create_nba_database over the scraped
player data, run on the freshly created empty table. -/
def insertAll (player_data : List (List String)) : List PlayerRow :=
  player_data.foldl insertRow []

/-- The column names of the CREATE TABLE statement: the two identity
columns, one text column per sanitized header other than Player and
Tm, and the derived PER column. -/
def createColumns (headers : List String) : List String :=
  "player_name" :: "player_team" ::
    (headers.filter (fun h => ¬(h = "Player" ∨ h = "Tm")) ++ ["PER"])

/-- ALTER TABLE players RENAME COLUMN old TO new, on the schema. -/
def renameColumn (cols : List String) (old new : String) : List String :=
  cols.map (fun c => if c = old then new else c)

/-- The three renames of create_nba_database in their literal order:
player_team to Position, then Age to Tm, then Pos to Age. -/
def renameSequence (cols : List String) : List String :=
  renameColumn (renameColumn (renameColumn cols "player_team" "Position") "Age" "Tm") "Pos" "Age"

/-- A schema column paired with a tag recording which original column
its stored contents came from; renames change the name and keep the
contents in place. -/
def taggedCols (cols : List String) : List (String × String) :=
  cols.map (fun c => (c, c))

/-- A column rename on the tagged schema: only the name changes, the
content tag stays. -/
def renameTagged (tc : List (String × String)) (old new : String) :
    List (String × String) :=
  tc.map (fun p => (if p.1 = old then new else p.1, p.2))

/-- The three renames of create_nba_database on the tagged schema, in
their literal order. -/
def renameSeqTagged (tc : List (String × String)) : List (String × String) :=
  renameTagged (renameTagged (renameTagged tc "player_team" "Position") "Age" "Tm") "Pos" "Age"

/-- Content tag of the first column with the given name (which original
column the data under this name came from). -/
def lookupTag (tc : List (String × String)) (c : String) : Option String :=
  (tc.find? (fun p => p.1 = c)).map Prod.snd

/-- UPDATE players SET PER = v WHERE player_name = n AND Position = t:
the Position column is the second schema column, stored in the team
field of the row model. -/
def applyUpdate (table : List PlayerRow) (n t : String) (v : ℚ) :
    List PlayerRow :=
  table.map (fun r => if r.name = n && r.team = t then { r with per := v } else r)

/-- The update loop of PER_calculator: for each fetched record compute
the PER and update every row matching (player_name, Position); a
computation fault aborts the loop. -/
def perUpdateLoop (records table : List PlayerRow) :
    Except Fault (List PlayerRow) :=
  match records with
  | [] => Except.ok table
  | rec :: rest => do
    let v ← computePER (rowFields rec)
    perUpdateLoop rest (applyUpdate table rec.name rec.team v)

/-- PER_calculator: it re-scrapes headers and player data, binds them,
and then computes every PER from the stored records alone. -/
def PER_calculator (scraped : List String × List (List String))
    (table : List PlayerRow) : Except Fault (List PlayerRow) :=
  let (_headers, _player_data) := scraped
  perUpdateLoop table table

/-- str.replace("%", "Pct") of main.py line 34: every percent sign is
replaced by the three characters Pct. -/
def replacePct : List Char → List Char
  | [] => []
  | c :: rest => (if c = '%' then ['P', 'c', 't'] else [c]) ++ replacePct rest

/-- A word character in the sense of the regular expression class of
main.py line 39 (ASCII letters, digits and the underscore). -/
def isWordChar (c : Char) : Bool :=
  c.isAlphanum || c = '_'

/-- The header sanitization of main.py lines 34-42 for one header:
replace percent signs by Pct, strip the non-word characters, and
prepend an underscore when the first remaining character is a digit.
Indexing the first character of an empty result is a fault, modelled
by none. -/
def sanitizeHeader (s : String) : Option String :=
  match (replacePct s.data).filter isWordChar with
  | [] => none
  | c :: rest => some (String.mk (if c.isDigit then '_' :: c :: rest else c :: rest))

/-- A table row of the scraped document: the text of its data cells. -/
structure TableRow where
  cells : List String
deriving DecidableEq, Repr

/-- The row extraction of scrape_nba_player_data lines 44-48: drop the
first table row and keep the cell texts of every other row. -/
def extractPlayerData (trs : List TableRow) : List (List String) :=
  (trs.drop 1).map TableRow.cells

/-- Value of the G column of a stored row, located by column name in
the schema, as the SELECT of print_top_players does. -/
def gValue (cols : List String) (r : PlayerRow) : Option String :=
  (cols.indexOf? "G").bind (fun i => (rowFields r).get? i)

/-- Byte-wise text comparison of the SQLite BINARY collation: is the
first string less than or equal to the second. -/
def sqliteTextLe : List Char → List Char → Bool
  | [], _ => true
  | _ :: _, [] => false
  | a :: as, b :: bs =>
    if a.toNat < b.toNat then true
    else if b.toNat < a.toNat then false
    else sqliteTextLe as bs

/-- The WHERE G >= 50 filter of print_top_players line 183: the G
column has TEXT affinity, so SQLite compares the stored text with the
text form of 50 byte-wise. -/
def eligibleG (cols : List String) (r : PlayerRow) : Bool :=
  match gValue cols r with
  | some g => sqliteTextLe "50".data g.data
  | none => false

/-- The rows selected by the G >= 50 query of print_top_players. -/
def filterEligible (cols : List String) (table : List PlayerRow) :
    List PlayerRow :=
  table.filter (eligibleG cols)

/-- Combined effect of the three renames on one column name. -/
def renameName (c : String) : String :=
  let c1 := if c = "player_team" then "Position" else c
  let c2 := if c1 = "Age" then "Tm" else c1
  if c2 = "Pos" then "Age" else c2

/-- The sanitized header list of a per-game statistics page, after the
leading rank column is dropped. -/
def perGameHeaders : List String :=
  ["Player", "Pos", "Age", "Tm", "G", "GS", "MP", "FG", "FGA", "FGPct",
   "_3P", "_3PA", "_3PPct", "_2P", "_2PA", "_2PPct", "eFGPct", "FT", "FTA",
   "FTPct", "ORB", "DRB", "TRB", "AST", "STL", "BLK", "TOV", "PF", "PTS"]

/-- A concrete fetched record with the statistics of the worked example
(20 points, 5 assists, 4 defensive and 2 offensive rebounds, 1 steal,
1 block, 6 of 10 two-pointers, 2 of 5 three-pointers, 2 turnovers,
3 fouls, 30 minutes) at the field positions PER_calculator reads. -/
def sampleRecord : List String :=
  ["LeBron James", "LAL", "SF", "39", "71", "71", "30", "0", "0", "0",
   "2", "5", "0", "6", "10", "0", "0", "0", "0", "0",
   "2", "4", "0", "5", "1", "1", "2", "3", "20"]

/-- A fetched record whose minutes played field is 0 and whose other
statistical fields are numeric. -/
def zeroMinutesRecord : List String :=
  ["Nobody Played", "NOP", "C", "30", "1", "0", "0", "0", "0", "0",
   "0", "0", "0", "0", "0", "0", "0", "0", "0", "0",
   "0", "0", "0", "0", "0", "0", "0", "0", "0"]

/-- The zero-minutes record with its minutes played field set to 1. -/
def oneMinuteRecord : List String :=
  ["Nobody Played", "NOP", "C", "30", "1", "0", "1", "0", "0", "0",
   "0", "0", "0", "0", "0", "0", "0", "0", "0", "0",
   "0", "0", "0", "0", "0", "0", "0", "0", "0"]

/-- Query columns of the ranking view demonstration. -/
def demoCols : List String := ["player_name", "Position", "Pos", "Age", "G"]

/-- A stored row with exactly 50 games played. -/
def demoFifty : PlayerRow :=
  { name := "Alice", team := "BOS", stats := ["C", "25", "50"], per := 0 }

/-- A stored row with 49 games played. -/
def demoFortyNine : PlayerRow :=
  { name := "Bob", team := "NYK", stats := ["PG", "30", "49"], per := 0 }

lemma replacePct_of_not_mem (l : List Char) (h : '%' ∉ l) : replacePct l = l := by
  induction l with
  | nil => rfl
  | cons c rest ih =>
    have hc : ¬ c = '%' := fun e => h (e ▸ List.mem_cons_self c rest)
    simp [replacePct, hc, ih (fun hm => h (List.mem_cons_of_mem _ hm))]

lemma isWordChar_ne_pct (c : Char) (h : isWordChar c = true) : c ≠ '%' := by
  intro e
  subst e
  exact absurd h (by decide)

lemma sanitizeHeader_fixed (c0 : Char) (l : List Char)
    (hall : ∀ x ∈ c0 :: l, isWordChar x = true) (hd0 : c0.isDigit = false) :
    sanitizeHeader (String.mk (c0 :: l)) = some (String.mk (c0 :: l)) := by
  have hnp : '%' ∉ c0 :: l := fun hm => isWordChar_ne_pct _ (hall _ hm) rfl
  have hdata : (String.mk (c0 :: l)).data = c0 :: l := rfl
  unfold sanitizeHeader
  rw [hdata, replacePct_of_not_mem _ hnp, List.filter_eq_self.mpr hall]
  simp [hd0]

/-- Claim C10: the PER values written by PER_calculator depend only on
the stored rows; the re-fetched headers and player data are never read,
so runs over the same stored rows with arbitrarily different fetched
data write identical PER values. -/
theorem per_calculator_ignores_refetch
    (s1 s2 : List String × List (List String)) (table : List PlayerRow) :
    PER_calculator s1 table = PER_calculator s2 table := rfl

/-- Claim C8 counterexample: the extractor keeps a row with zero data
cells, so not every returned row has at least two fields. -/
theorem extract_keeps_short_rows :
    ∃ row ∈ extractPlayerData [TableRow.mk ["Rk"], TableRow.mk []],
      row.length < 2 := by
  refine ⟨[], ?_, ?_⟩ <;> simp [extractPlayerData]

/-- Claim C8 amended: scrape_nba_player_data keeps every non-header row
regardless of its field count; the rows lacking the minimum two leading
fields are skipped later, by the insertion loop of create_nba_database,
so the store is unchanged by them. -/
theorem short_rows_dropped_at_insert :
    (∀ trs : List TableRow, (extractPlayerData trs).length = trs.length - 1) ∧
    (∀ (data : List (List String)) (acc : List PlayerRow),
      data.foldl insertRow acc =
        (data.filter (fun info => 2 ≤ info.length)).foldl insertRow acc) := by
  constructor
  · intro trs
    simp [extractPlayerData]
  · intro data
    induction data with
    | nil => intro acc; rfl
    | cons info rest ih =>
      intro acc
      by_cases h : info.length < 2
      · have h2 : ¬ (2 ≤ info.length) := by omega
        simp only [List.foldl_cons, List.filter_cons, h2, decide_False, if_false]
        rw [show insertRow acc info = acc from by simp [insertRow, h]]
        exact ih acc
      · have h2 : 2 ≤ info.length := by omega
        simp only [List.foldl_cons, List.filter_cons, h2, decide_True, if_true]
        exact ih (insertRow acc info)

/-- Claim C6 counterexample: sanitizing the empty header faults (the
code indexes character 0 of an empty string), so sanitization is not
total on every header string. -/
theorem sanitize_empty_faults : sanitizeHeader "" = none := rfl

/-- Claim C6 amended: header sanitization is deterministic, and it
returns a result exactly when the header still has a word character
after the percent replacement; on the empty header (and any header of
only non-word characters) it faults. -/
theorem sanitize_total_iff_word_char (s : String) :
    (sanitizeHeader s).isSome = (replacePct s.data).any isWordChar := by
  unfold sanitizeHeader
  rcases hf : (replacePct s.data).filter isWordChar with _ | ⟨c, rest⟩
  · rw [List.filter_eq_nil_iff] at hf
    simp only [Option.isSome_none]
    symm
    rw [List.any_eq_false]
    exact hf
  · simp only [Option.isSome_some]
    have hc : c ∈ (replacePct s.data).filter isWordChar := by
      rw [hf]; exact List.mem_cons_self _ _
    symm
    rw [List.any_eq_true]
    exact ⟨c, List.mem_of_mem_filter hc, List.of_mem_filter hc⟩

/-- Claim C7: header sanitization is idempotent on every header where
it produces a result. -/
theorem sanitize_idempotent (s r : String) (h : sanitizeHeader s = some r) :
    sanitizeHeader r = some r := by
  rcases hf : (replacePct s.data).filter isWordChar with _ | ⟨c, rest⟩
  · have hn : sanitizeHeader s = none := by
      unfold sanitizeHeader
      rw [hf]
    rw [hn] at h
    cases h
  · have hs : sanitizeHeader s =
        some (String.mk (if c.isDigit then '_' :: c :: rest else c :: rest)) := by
      unfold sanitizeHeader
      rw [hf]
    have hr : r = String.mk (if c.isDigit then '_' :: c :: rest else c :: rest) :=
      Option.some.inj (h.symm.trans hs)
    have hall : ∀ x ∈ c :: rest, isWordChar x = true := by
      intro x hx
      have hx2 : x ∈ (replacePct s.data).filter isWordChar := by
        rw [hf]
        exact hx
      exact List.of_mem_filter hx2
    by_cases hd : c.isDigit
    · rw [hr, if_pos hd]
      refine sanitizeHeader_fixed '_' (c :: rest) ?_ (by decide)
      intro x hx
      rcases List.mem_cons.mp hx with he | hx2
      · subst he
        decide
      · exact hall _ hx2
    · rw [hr, if_neg hd]
      exact sanitizeHeader_fixed c rest hall (by simpa using hd)

/-- Claim C7 witness: the raw header 3P sanitizes to _3P, and
sanitizing _3P again is the identity. -/
theorem sanitize_idempotent_witness :
    sanitizeHeader "3P" = some "_3P" ∧ sanitizeHeader "_3P" = some "_3P" :=
  ⟨rfl, sanitize_idempotent "3P" "_3P" rfl⟩

lemma nodup_key_insertRow (acc : List PlayerRow) (info : List String)
    (h : ((acc.map rowKey)).Nodup) : (((insertRow acc info).map rowKey)).Nodup := by
  unfold insertRow
  split
  · exact h
  · dsimp only
    split
    · exact h
    · rename_i hlen hany
      rw [List.map_append, List.nodup_append]
      refine ⟨h, List.nodup_singleton _, ?_⟩
      intro k hk hk2
      rcases List.mem_map.mp hk with ⟨r, hr, hkey⟩
      rcases List.mem_singleton.mp hk2 with rfl
      have : rowKey r = (info.getD 0 "", info.getD 1 "") := by
        rw [hkey]
        rfl
      have hnt : r.name = info.getD 0 "" ∧ r.team = info.getD 1 "" := by
        have h1 := congrArg Prod.fst this
        have h2 := congrArg Prod.snd this
        exact ⟨h1, h2⟩
      exact hany (List.any_eq_true.mpr
        ⟨r, hr, by simp [hnt.1, hnt.2]⟩)

lemma nodup_key_foldl (data : List (List String)) (acc : List PlayerRow)
    (h : ((acc.map rowKey)).Nodup) :
    (((data.foldl insertRow acc).map rowKey)).Nodup := by
  induction data generalizing acc with
  | nil => exact h
  | cons info rest ih => exact ih _ (nodup_key_insertRow acc info h)

/-- Claim C5: after one run of create_nba_database on a fresh store,
no two stored rows share the same (player_name, player_team) identity
pair: the insertion loop probes for the pair and skips duplicates. -/
theorem insert_no_duplicate_keys (data : List (List String)) :
    (((insertAll data).map rowKey)).Nodup :=
  nodup_key_foldl data [] List.nodup_nil

lemma mem_insertRow (acc : List PlayerRow) (info : List String) (r : PlayerRow)
    (h : r ∈ insertRow acc info) :
    r ∈ acc ∨ (info.getD 0 "" = r.name ∧ info.getD 1 "" = r.team) := by
  unfold insertRow at h
  split at h
  · exact Or.inl h
  · dsimp only at h
    split at h
    · exact Or.inl h
    · rcases List.mem_append.mp h with hl | hr
      · exact Or.inl hl
      · rcases List.mem_singleton.mp hr with rfl
        exact Or.inr ⟨rfl, rfl⟩

lemma mem_foldl_insert (data : List (List String)) (acc : List PlayerRow)
    (r : PlayerRow) (h : r ∈ data.foldl insertRow acc) :
    r ∈ acc ∨ ∃ info ∈ data, info.getD 0 "" = r.name ∧ info.getD 1 "" = r.team := by
  induction data generalizing acc with
  | nil => exact Or.inl h
  | cons info rest ih =>
    rcases ih (insertRow acc info) h with hl | ⟨i2, hi2, he⟩
    · rcases mem_insertRow acc info r hl with hin | he
      · exact Or.inl hin
      · exact Or.inr ⟨info, List.mem_cons_self _ _, he⟩
    · exact Or.inr ⟨i2, List.mem_cons_of_mem _ hi2, he⟩

/-- Claim C2: PER_calculator writes the score back keyed on the pair
(player_name, Position-column value).  The second schema column is
named Position after the rename sequence; the value stored there is
the second field of the fetched record, which is the team cell of the
scraped row that create_nba_database inserted as player_team; and the
update touches exactly the rows whose identity pair matches. -/
theorem per_update_keyed_on_position
    (headers : List String) (data : List (List String)) :
    (renameSequence (createColumns headers)).get? 1 = some "Position"
    ∧ (∀ r ∈ insertAll data,
        ∃ info ∈ data, info.getD 0 "" = r.name ∧ info.getD 1 "" = r.team)
    ∧ (∀ r0 : PlayerRow, (rowFields r0).get? 1 = some r0.team)
    ∧ (∀ (table : List PlayerRow) (r0 : PlayerRow) (v : ℚ),
        applyUpdate table r0.name r0.team v =
          table.map (fun r =>
            if rowKey r = rowKey r0 then { r with per := v } else r)) := by
  refine ⟨rfl, ?_, fun r0 => rfl, ?_⟩
  · intro r hr
    rcases mem_foldl_insert data [] r hr with hl | he
    · cases hl
    · exact he
  · intro table r0 v
    unfold applyUpdate
    apply List.map_congr_left
    intro r _
    by_cases h1 : r.name = r0.name
    · by_cases h2 : r.team = r0.team
      · simp [h1, h2, rowKey]
      · simp [h1, h2, rowKey]
    · simp [h1, rowKey]

/-- Claim C9: the minimum-games filter of print_top_players keeps a
player whose stored G value is exactly 50 and drops one whose stored G
value is 49. -/
theorem games_filter_boundary (cols : List String) (table : List PlayerRow)
    (r : PlayerRow) (hr : r ∈ table) :
    (gValue cols r = some "50" → r ∈ filterEligible cols table)
    ∧ (gValue cols r = some "49" → r ∉ filterEligible cols table) := by
  constructor
  · intro h
    refine List.mem_filter.mpr ⟨hr, ?_⟩
    simp only [eligibleG, h]
    decide
  · intro h hmem
    have h2 := (List.mem_filter.mp hmem).2
    rw [eligibleG, h] at h2
    exact absurd h2 (by decide)

lemma renameSeqTagged_eq_map (cols : List String) :
    renameSeqTagged (taggedCols cols) = cols.map (fun c => (renameName c, c)) := by
  simp only [renameSeqTagged, renameTagged, taggedCols, List.map_map]
  rfl

lemma renameName_eq_age (c : String) (h : renameName c = "Age") : c = "Pos" := by
  by_cases h1 : c = "player_team"
  · subst h1
    exact absurd h (by decide)
  · by_cases h2 : c = "Age"
    · subst h2
      exact absurd h (by decide)
    · by_cases h3 : c = "Pos"
      · exact h3
      · rw [show renameName c = c from by simp [renameName, h1, h2, h3]] at h
        exact absurd h h2

lemma renameName_eq_tm (c : String) (h : renameName c = "Tm") :
    c = "Age" ∨ c = "Tm" := by
  by_cases h1 : c = "player_team"
  · subst h1
    exact absurd h (by decide)
  · by_cases h2 : c = "Age"
    · exact Or.inl h2
    · by_cases h3 : c = "Pos"
      · subst h3
        exact absurd h (by decide)
      · rw [show renameName c = c from by simp [renameName, h1, h2, h3]] at h
        exact Or.inr h

lemma find?_cons_false {α : Type} (p : α → Bool) (a : α) (l : List α)
    (h : p a = false) : (a :: l).find? p = l.find? p := by
  simp [List.find?, h]

lemma find?_cons_true {α : Type} (p : α → Bool) (a : α) (l : List α)
    (h : p a = true) : (a :: l).find? p = some a := by
  simp [List.find?, h]

lemma find?_append_of_some {α : Type} (p : α → Bool) (l1 l2 : List α) (a : α)
    (h : l1.find? p = some a) : (l1 ++ l2).find? p = some a := by
  induction l1 with
  | nil => cases h
  | cons c rest ih =>
    rcases hc : p c with hf | ht
    · rw [find?_cons_false p c rest hc] at h
      rw [List.cons_append, find?_cons_false p c _ hc]
      exact ih h
    · rw [find?_cons_true p c rest hc] at h
      rw [List.cons_append, find?_cons_true p c _ hc]
      exact h

lemma find_tm_in_headers (hs : List String) (hA : "Age" ∈ hs) (hT : "Tm" ∉ hs) :
    (hs.map (fun c => (renameName c, c))).find?
      (fun p => p.1 = "Tm") = some ("Tm", "Age") := by
  induction hs with
  | nil => cases hA
  | cons c rest ih =>
    rw [List.map_cons]
    by_cases hc : c = "Age"
    · subst hc
      rfl
    · have hcT : c ≠ "Tm" := fun e => hT (e ▸ List.mem_cons_self c rest)
      have hp2 : ¬ ((fun p : String × String => decide (p.1 = "Tm")) (renameName c, c) = true) := by
        intro hcontra
        simp only [decide_eq_true_eq] at hcontra
        rcases renameName_eq_tm c hcontra with he | he
        · exact absurd he hc
        · exact absurd he hcT
      rw [@List.find?_cons_of_neg _ (fun p => decide (p.1 = "Tm")) (renameName c, c) _ hp2]
      refine ih ?_ (fun hm => hT (List.mem_cons_of_mem _ hm))
      rcases List.mem_cons.mp hA with he | hm
      · exact absurd he.symm hc
      · exact hm

lemma find_age_in_headers (hs : List String) (hP : "Pos" ∈ hs) :
    (hs.map (fun c => (renameName c, c))).find?
      (fun p => p.1 = "Age") = some ("Age", "Pos") := by
  induction hs with
  | nil => cases hP
  | cons c rest ih =>
    rw [List.map_cons]
    by_cases hc : c = "Pos"
    · subst hc
      rfl
    · have hp2 : ¬ ((fun p : String × String => decide (p.1 = "Age")) (renameName c, c) = true) := by
        intro hcontra
        simp only [decide_eq_true_eq] at hcontra
        exact absurd (renameName_eq_age c hcontra) hc
      rw [@List.find?_cons_of_neg _ (fun p => decide (p.1 = "Age")) (renameName c, c) _ hp2]
      refine ih ?_
      rcases List.mem_cons.mp hP with he | hm
      · exact absurd he.symm hc
      · exact hm

/-- Claim C3: after the three renames of create_nba_database, executed
in the literal order player_team to Position, Age to Tm, Pos to Age,
the column named Position carries the contents originally stored under
player_team (the team cell), the column named Tm carries the contents
of the original Age column, and the column named Age carries the
contents of the original Pos column. -/
theorem rename_sequence_mapping (headers : List String)
    (hAge : "Age" ∈ headers) (hPos : "Pos" ∈ headers) :
    lookupTag (renameSeqTagged (taggedCols (createColumns headers))) "Position"
        = some "player_team"
    ∧ lookupTag (renameSeqTagged (taggedCols (createColumns headers))) "Tm"
        = some "Age"
    ∧ lookupTag (renameSeqTagged (taggedCols (createColumns headers))) "Age"
        = some "Pos" := by
  have hmap := renameSeqTagged_eq_map (createColumns headers)
  have hA2 : "Age" ∈ headers.filter (fun h => ¬(h = "Player" ∨ h = "Tm")) :=
    List.mem_filter.mpr ⟨hAge, by decide⟩
  have hP2 : "Pos" ∈ headers.filter (fun h => ¬(h = "Player" ∨ h = "Tm")) :=
    List.mem_filter.mpr ⟨hPos, by decide⟩
  have hT2 : "Tm" ∉ headers.filter (fun h => ¬(h = "Player" ∨ h = "Tm")) :=
    fun hm => absurd (List.mem_filter.mp hm).2 (by decide)
  have e1 : createColumns headers = "player_name" :: "player_team" ::
      (headers.filter (fun h => ¬(h = "Player" ∨ h = "Tm")) ++ ["PER"]) := rfl
  refine ⟨?_, ?_, ?_⟩
  · rw [hmap]
    rfl
  · rw [hmap]
    unfold lookupTag
    rw [e1, List.map_cons, List.map_cons, List.map_append]
    rw [@List.find?_cons_of_neg _ (fun p => decide (p.1 = "Tm"))
      (renameName "player_name", "player_name") _ (by decide)]
    rw [@List.find?_cons_of_neg _ (fun p => decide (p.1 = "Tm"))
      (renameName "player_team", "player_team") _ (by decide)]
    rw [find?_append_of_some _ _ _ _ (find_tm_in_headers _ hA2 hT2)]
    rfl
  · rw [hmap]
    unfold lookupTag
    rw [e1, List.map_cons, List.map_cons, List.map_append]
    rw [@List.find?_cons_of_neg _ (fun p => decide (p.1 = "Age"))
      (renameName "player_name", "player_name") _ (by decide)]
    rw [@List.find?_cons_of_neg _ (fun p => decide (p.1 = "Age"))
      (renameName "player_team", "player_team") _ (by decide)]
    rw [find?_append_of_some _ _ _ _ (find_age_in_headers _ hP2)]
    rfl

/-- Claim C3 witness: the rename mapping on the per-game header list. -/
theorem rename_sequence_mapping_witness :
    lookupTag (renameSeqTagged (taggedCols (createColumns perGameHeaders))) "Position"
        = some "player_team"
    ∧ lookupTag (renameSeqTagged (taggedCols (createColumns perGameHeaders))) "Tm"
        = some "Age"
    ∧ lookupTag (renameSeqTagged (taggedCols (createColumns perGameHeaders))) "Age"
        = some "Pos" :=
  rename_sequence_mapping perGameHeaders (by decide) (by decide)

/-- Claim C1: for every fetched record whose thirteen statistical
fields convert to numbers and whose minutes played M is positive, the
computed score is the positive subtotal minus the bracketed penalty
subtotal divided by M; the division applies only to the penalty
subtotal. -/
theorem per_formula_grouping (record : List String)
    (M p a dr ob st bl m2 m3 a2 a3 tv pf : ℚ)
    (hM : getFloat record 6 = Except.ok M) (hMpos : 0 < M)
    (hp : getFloat record 28 = Except.ok p)
    (ha : getFloat record 23 = Except.ok a)
    (hdr : getFloat record 21 = Except.ok dr)
    (hob : getFloat record 20 = Except.ok ob)
    (hst : getFloat record 24 = Except.ok st)
    (hbl : getFloat record 25 = Except.ok bl)
    (hm2 : getFloat record 13 = Except.ok m2)
    (hm3 : getFloat record 10 = Except.ok m3)
    (ha2 : getFloat record 14 = Except.ok a2)
    (ha3 : getFloat record 11 = Except.ok a3)
    (htv : getFloat record 26 = Except.ok tv)
    (hpf : getFloat record 27 = Except.ok pf) :
    computePER record =
      Except.ok ((p + a + dr / 2 + ob + 2 * st + 2 * bl + m2 + 2 * m3) -
        ((a2 / 2 + a3 + 2 * tv + pf / 3) / M)) := by
  have hM0 : M ≠ 0 := ne_of_gt hMpos
  simp [computePER, hM, hp, ha, hdr, hob, hst, hbl, hm2, hm3, ha2, ha3,
    htv, hpf, hM0, Bind.bind, Except.bind]
  ring_nf

/-- Claim C1 witness: the worked example evaluates to 42.5. -/
theorem per_formula_grouping_witness :
    computePER sampleRecord = Except.ok (85 / 2) := by
  have h := per_formula_grouping sampleRecord
    ((30 : ℕ) : ℚ) ((20 : ℕ) : ℚ) ((5 : ℕ) : ℚ) ((4 : ℕ) : ℚ) ((2 : ℕ) : ℚ)
    ((1 : ℕ) : ℚ) ((1 : ℕ) : ℚ) ((6 : ℕ) : ℚ) ((2 : ℕ) : ℚ) ((10 : ℕ) : ℚ)
    ((5 : ℕ) : ℚ) ((2 : ℕ) : ℚ) ((3 : ℕ) : ℚ)
    rfl (by norm_num) rfl rfl rfl rfl rfl rfl rfl rfl rfl rfl rfl rfl
  rw [h]
  norm_num

/-- Claim C4: with all thirteen fields converting to numbers, a minutes
played value of 0 makes the PER computation fault with a division by
zero (no guard prevents it), and any nonzero minutes value lets the
division branch succeed with a value. -/
theorem per_zero_minutes_fault (record : List String)
    (M p a dr ob st bl m2 m3 a2 a3 tv pf : ℚ)
    (hM : getFloat record 6 = Except.ok M)
    (hp : getFloat record 28 = Except.ok p)
    (ha : getFloat record 23 = Except.ok a)
    (hdr : getFloat record 21 = Except.ok dr)
    (hob : getFloat record 20 = Except.ok ob)
    (hst : getFloat record 24 = Except.ok st)
    (hbl : getFloat record 25 = Except.ok bl)
    (hm2 : getFloat record 13 = Except.ok m2)
    (hm3 : getFloat record 10 = Except.ok m3)
    (ha2 : getFloat record 14 = Except.ok a2)
    (ha3 : getFloat record 11 = Except.ok a3)
    (htv : getFloat record 26 = Except.ok tv)
    (hpf : getFloat record 27 = Except.ok pf) :
    (M = 0 → computePER record = Except.error Fault.zeroDivisionError)
    ∧ (M ≠ 0 → ∃ q, computePER record = Except.ok q) := by
  constructor
  · intro h0
    simp [computePER, hM, hp, ha, hdr, hob, hst, hbl, hm2, hm3, ha2, ha3,
      htv, hpf, h0, Bind.bind, Except.bind]
  · intro h0
    exact ⟨(p + a + dr / 2 + ob + st * 2 + bl * 2 + m2 + m3 * 2) -
      (a2 / 2 + a3 + tv * 2 + pf / 3) / M, by
      simp [computePER, hM, hp, ha, hdr, hob, hst, hbl, hm2, hm3, ha2, ha3,
        htv, hpf, h0, Bind.bind, Except.bind]⟩

/-- Claim C4 witness: the zero-minutes record faults with a division by
zero; changing the minutes field to 1 produces a value. -/
theorem per_zero_minutes_fault_witness :
    computePER zeroMinutesRecord = Except.error Fault.zeroDivisionError
    ∧ ∃ q, computePER oneMinuteRecord = Except.ok q := by
  constructor
  · exact (per_zero_minutes_fault zeroMinutesRecord
      ((0 : ℕ) : ℚ) ((0 : ℕ) : ℚ) ((0 : ℕ) : ℚ) ((0 : ℕ) : ℚ) ((0 : ℕ) : ℚ)
      ((0 : ℕ) : ℚ) ((0 : ℕ) : ℚ) ((0 : ℕ) : ℚ) ((0 : ℕ) : ℚ) ((0 : ℕ) : ℚ)
      ((0 : ℕ) : ℚ) ((0 : ℕ) : ℚ) ((0 : ℕ) : ℚ)
      rfl rfl rfl rfl rfl rfl rfl rfl rfl rfl rfl rfl rfl).1 (by norm_num)
  · exact (per_zero_minutes_fault oneMinuteRecord
      ((1 : ℕ) : ℚ) ((0 : ℕ) : ℚ) ((0 : ℕ) : ℚ) ((0 : ℕ) : ℚ) ((0 : ℕ) : ℚ)
      ((0 : ℕ) : ℚ) ((0 : ℕ) : ℚ) ((0 : ℕ) : ℚ) ((0 : ℕ) : ℚ) ((0 : ℕ) : ℚ)
      ((0 : ℕ) : ℚ) ((0 : ℕ) : ℚ) ((0 : ℕ) : ℚ)
      rfl rfl rfl rfl rfl rfl rfl rfl rfl rfl rfl rfl rfl).2 (by norm_num)

/-- Claim C10 witness: two runs with different fetched data on the
empty store produce the same result. -/
theorem per_calculator_ignores_refetch_witness :
    PER_calculator (["MP"], [["x", "y"]]) [] = PER_calculator ([], []) [] :=
  per_calculator_ignores_refetch (["MP"], [["x", "y"]]) ([], []) []

/-- Claim C8 amended witness: a three-row document keeps both non-header
rows, and the insertion loop ignores the empty row. -/
theorem short_rows_dropped_at_insert_witness :
    (extractPlayerData
        [TableRow.mk ["Rk"], TableRow.mk [], TableRow.mk ["A", "B"]]).length =
      [TableRow.mk ["Rk"], TableRow.mk [], TableRow.mk ["A", "B"]].length - 1
    ∧ [[], ["A", "B"]].foldl insertRow [] =
        (([[], ["A", "B"]] : List (List String)).filter
          (fun info => 2 ≤ info.length)).foldl insertRow [] :=
  ⟨short_rows_dropped_at_insert.1 _, short_rows_dropped_at_insert.2 [[], ["A", "B"]] []⟩

/-- Claim C6 amended witness: a header carrying only a percent sign
still sanitizes, because the percent expansion leaves word characters. -/
theorem sanitize_total_iff_word_char_witness :
    (sanitizeHeader "%").isSome = (replacePct "%".data).any isWordChar :=
  sanitize_total_iff_word_char "%"

/-- Claim C5 witness: inserting a duplicated identity pair leaves the
key list without duplicates. -/
theorem insert_no_duplicate_keys_witness :
    (((insertAll [["A", "X", "1"], ["A", "X", "2"], ["B", "Y", "3"]]).map rowKey)).Nodup :=
  insert_no_duplicate_keys [["A", "X", "1"], ["A", "X", "2"], ["B", "Y", "3"]]

/-- Claim C2 witness: on the per-game header list the second schema
column is named Position after the renames, and the single inserted
row keeps its source team cell in the team field. -/
theorem per_update_keyed_on_position_witness :
    (renameSequence (createColumns perGameHeaders)).get? 1 = some "Position"
    ∧ ∃ info ∈ [["Ann", "BOS", "C"]],
        info.getD 0 "" = "Ann" ∧ info.getD 1 "" = "BOS" := by
  constructor
  · exact (per_update_keyed_on_position perGameHeaders [["Ann", "BOS", "C"]]).1
  · exact (per_update_keyed_on_position perGameHeaders [["Ann", "BOS", "C"]]).2.1
      { name := "Ann", team := "BOS", stats := ["C"], per := 0 } (by decide)

/-- Claim C9 witness: the G filter keeps the 50-game row and drops the
49-game row. -/
theorem games_filter_boundary_witness :
    demoFifty ∈ filterEligible demoCols [demoFifty, demoFortyNine]
    ∧ demoFortyNine ∉ filterEligible demoCols [demoFifty, demoFortyNine] := by
  constructor
  · exact (games_filter_boundary demoCols [demoFifty, demoFortyNine] demoFifty
      (List.mem_cons_self _ _)).1 rfl
  · exact (games_filter_boundary demoCols [demoFifty, demoFortyNine] demoFortyNine
      (List.mem_cons_of_mem _ (List.mem_cons_self _ _))).2 rfl
